import Mathlib

/-!
Verification of the agentic-mobility core of the `maveric` repository:
a shallow embedding in Lean 4 of the allocation formatter, validation
engine, routing function, parameter chain, location resolver and
topology placement engine, together with proofs of the specified
properties.  Python floats are modelled by rational numbers; the opaque
transcendental float operations (`math.sqrt`, `math.cos`, `np.sin`,
`np.pi`, `np.random.randint`) are abstracted as parameters collected in
a `FloatOps` record so theorems quantify over them.  Python `while`
loops that are not structurally recursive are embedded with explicit
fuel, returning `none` when the fuel is exhausted (a run of the real
code corresponds to a sufficiently large fuel value).
-/

namespace Maveric

/-! ### Models of Python / numpy primitives -/

/-- Python `int(x)` applied to a float: truncation toward zero. -/
def pyInt (q : ℚ) : ℤ := if 0 ≤ q then ⌊q⌋ else ⌈q⌉

/-- `np.linspace(a, b, n)`: `n` evenly spaced points from `a` to `b`
inclusive (step `(b-a)/(n-1)` for `n ≥ 2`; `[a]` for `n = 1`). -/
def npLinspace (a b : ℚ) : ℕ → List ℚ
  | 0 => []
  | 1 => [a]
  | n + 2 => (List.range (n + 2)).map fun (i : ℕ) => a + (b - a) * (i : ℚ) / (n + 1)

/-- `np.clip(x, lo, hi)` = `min(max(x, lo), hi)`. -/
def npClip (x lo hi : ℚ) : ℚ := min (max x lo) hi

/-- `math.ceil(math.sqrt(n))` for a Python integer `n`: the least `m`
with `n ≤ m ^ 2` (float sqrt is exact enough for all realistic `n`). -/
def ceilSqrtNat (n : ℕ) : ℕ :=
  if Nat.sqrt n * Nat.sqrt n = n then Nat.sqrt n else Nat.sqrt n + 1

/-- Round half to even at integer precision (Python `round`). -/
def pyRoundEven (q : ℚ) : ℤ :=
  if q - ⌊q⌋ < 1/2 then ⌊q⌋
  else if 1/2 < q - ⌊q⌋ then ⌊q⌋ + 1
  else if Even ⌊q⌋ then ⌊q⌋ else ⌊q⌋ + 1

/-- Python `round(x, 6)` as used on coordinates. -/
def pyRound6 (q : ℚ) : ℚ := (pyRoundEven (q * 1000000) : ℚ) / 1000000

/-- `dict.get(k, d)` on an association list (first binding wins, as in a
Python dict whose keys are unique). -/
def dictGet {α : Type} (l : List (String × α)) (k : String) (d : α) : α :=
  ((l.find? (fun p => p.1 = k)).map Prod.snd).getD d

/-- The opaque float operations used by the topology generator.
`sqrtQ` models `math.sqrt`, `cosQ` models `math.cos` (radians), `sinQ`
models `np.sin`, `piQ` models `math.pi`, and `randAz n` models the
`n`-th draw of `np.random.randint(0, 360)`. -/
structure FloatOps where
  sqrtQ : ℚ → ℚ
  cosQ : ℚ → ℚ
  sinQ : ℚ → ℚ
  piQ : ℚ
  randAz : ℕ → ℤ

/-! ### Allocation formatter (`formatters/radp_formatter.py`) -/

/-- Sum of the counts of an association list (the values of the Python
dict `ue_class_counts`). -/
def sumCounts (l : List (String × ℤ)) : ℤ := (l.map Prod.snd).sum

/-- `d[k] += δ` on an association list: the first binding of `k` is
updated (a Python dict holds each key once). -/
def addToKey : List (String × ℤ) → String → ℤ → List (String × ℤ)
  | [], _, _ => []
  | (k, v) :: rest, key, d =>
    if k = key then (k, v + d) :: rest else (k, v) :: addToKey rest key d

/-- The positive-shortfall loop of `format_to_radp`: add 1 to each of
the listed classes in order. -/
def incrTargets (counts : List (String × ℤ)) (targets : List String) :
    List (String × ℤ) :=
  targets.foldl (fun c k => addToKey c k 1) counts

/-- Current count of a class (`ue_class_counts[k]`). -/
def lookupCount (l : List (String × ℤ)) (k : String) : ℤ :=
  ((l.find? (fun p => p.1 = k)).map Prod.snd).getD 0

/-- The negative-shortfall loop of `format_to_radp`: subtract 1 from
each listed class whose current count is positive. -/
def decrTargets (counts : List (String × ℤ)) (targets : List String) :
    List (String × ℤ) :=
  targets.foldl (fun c k => if 0 < lookupCount c k then addToKey c k (-1) else c)
    counts

/-- The allocation step of `RADPFormatter.format_to_radp`
(radp_formatter.py lines 30-52): fractional shares to integer counts.
`none` models the `IndexError` raised when `remaining` exceeds the
number of classes (`sorted_classes[i]` out of range). -/
def allocateCounts (ue_class_dist : List (String × ℚ)) (num_ues : ℕ) :
    Option (List (String × ℤ)) :=
  let baseCounts := ue_class_dist.map fun p => (p.1, pyInt ((num_ues : ℚ) * p.2))
  let fractionalParts := ue_class_dist.map fun p =>
    (p.1, (num_ues : ℚ) * p.2 - (pyInt ((num_ues : ℚ) * p.2) : ℚ))
  let totalAllocated := sumCounts baseCounts
  let remaining : ℤ := (num_ues : ℤ) - totalAllocated
  if 0 < remaining then
    let sortedClasses := fractionalParts.insertionSort fun a b => b.2 ≤ a.2
    if remaining.toNat ≤ sortedClasses.length then
      some (incrTargets baseCounts ((sortedClasses.take remaining.toNat).map Prod.fst))
    else none
  else if remaining < 0 then
    let sortedClasses := fractionalParts.insertionSort fun a b => a.2 ≤ b.2
    if (-remaining).toNat ≤ sortedClasses.length then
      some (decrTargets baseCounts ((sortedClasses.take (-remaining).toNat).map Prod.fst))
    else none
  else
    some baseCounts

/-! ### Lemmas about the allocation helpers -/

theorem addToKey_keys (l : List (String × ℤ)) (k : String) (d : ℤ) :
    (addToKey l k d).map Prod.fst = l.map Prod.fst := by
  induction l with
  | nil => rfl
  | cons p rest ih =>
    obtain ⟨a, b⟩ := p
    simp only [addToKey]
    by_cases h : a = k <;> simp [h, ih]

theorem addToKey_sum (l : List (String × ℤ)) (k : String) (d : ℤ)
    (h : k ∈ l.map Prod.fst) :
    sumCounts (addToKey l k d) = sumCounts l + d := by
  induction l with
  | nil => simp at h
  | cons p rest ih =>
    obtain ⟨a, b⟩ := p
    by_cases hak : a = k
    · simp only [addToKey, if_pos hak, sumCounts, List.map_cons, List.sum_cons]
      ring
    · have hk : k ∈ rest.map Prod.fst := by
        simpa [hak, Ne.symm hak] using h
      simp only [addToKey, if_neg hak, sumCounts, List.map_cons, List.sum_cons] at *
      rw [ih hk]
      ring

theorem addToKey_nonneg (l : List (String × ℤ)) (k : String) (d : ℤ)
    (hd : 0 ≤ d) (h : ∀ p ∈ l, 0 ≤ p.2) :
    ∀ p ∈ addToKey l k d, 0 ≤ p.2 := by
  induction l with
  | nil => simp [addToKey]
  | cons q rest ih =>
    obtain ⟨a, b⟩ := q
    intro p hp
    simp only [addToKey] at hp
    by_cases hak : a = k
    · rw [if_pos hak] at hp
      rcases List.mem_cons.mp hp with h1 | h1
      · subst h1
        have := h (a, b) (List.mem_cons_self _ _)
        simpa using add_nonneg this hd
      · exact h p (List.mem_cons_of_mem _ h1)
    · rw [if_neg hak] at hp
      rcases List.mem_cons.mp hp with h1 | h1
      · subst h1
        exact h (a, b) (List.mem_cons_self _ _)
      · exact ih (fun q hq => h q (List.mem_cons_of_mem _ hq)) p h1

theorem incrTargets_sum (ts : List String) (l : List (String × ℤ))
    (h : ∀ k ∈ ts, k ∈ l.map Prod.fst) :
    sumCounts (incrTargets l ts) = sumCounts l + ts.length := by
  induction ts generalizing l with
  | nil => simp [incrTargets]
  | cons t ts ih =>
    have step : incrTargets l (t :: ts) = incrTargets (addToKey l t 1) ts := rfl
    rw [step, ih (addToKey l t 1) (fun k hk => by
      rw [addToKey_keys]
      exact h k (List.mem_cons_of_mem _ hk))]
    rw [addToKey_sum l t 1 (h t (List.mem_cons_self _ _))]
    simp only [List.length_cons]
    push_cast
    ring

theorem incrTargets_nonneg (ts : List String) (l : List (String × ℤ))
    (h : ∀ p ∈ l, 0 ≤ p.2) :
    ∀ p ∈ incrTargets l ts, 0 ≤ p.2 := by
  induction ts generalizing l with
  | nil => simp only [incrTargets, List.foldl_nil]; exact h
  | cons t ts ih =>
    have step : incrTargets l (t :: ts) = incrTargets (addToKey l t 1) ts := rfl
    rw [step]
    exact ih _ (addToKey_nonneg l t 1 (by norm_num) h)

theorem floorSum_le (l : List ℚ) :
    (((l.map fun q => ⌊q⌋).sum : ℤ) : ℚ) ≤ l.sum := by
  induction l with
  | nil => simp
  | cons a t ih =>
    simp only [List.map_cons, List.sum_cons, Int.cast_add]
    exact add_le_add (Int.floor_le a) ih

theorem sum_lt_floorSum_add (l : List ℚ) (h : l ≠ []) :
    l.sum < (((l.map fun q => ⌊q⌋).sum : ℤ) : ℚ) + l.length := by
  induction l with
  | nil => exact absurd rfl h
  | cons a t ih =>
    rcases List.eq_nil_or_concat t with ht | ht
    · subst ht
      simp only [List.map_cons, List.map_nil, List.sum_cons, List.sum_nil,
        List.length_cons, List.length_nil, add_zero, Int.cast_add]
      push_cast
      linarith [Int.lt_floor_add_one a]
    · have htne : t ≠ [] := by
        rcases ht with ⟨L, b, rfl⟩
        simp
      have := ih htne
      simp only [List.map_cons, List.sum_cons, Int.cast_add, List.length_cons]
      push_cast at this ⊢
      have ha := Int.lt_floor_add_one a
      linarith

/-! ### C1 / C7: allocation exactness -/

/-- C1 (amended): for every non-negative integer total `N` and every
class-fraction map whose values each lie in `[0,1]` and sum to exactly
`1`, the allocation step of `RADPFormatter.format_to_radp` produces
integer per-class counts whose sum equals `N` exactly and with every
count nonnegative.  (The original 0.01 tolerance on the fraction sum is
not enough: see the counterexample below.) -/
theorem allocateCounts_exact (fracs : List (String × ℚ)) (N : ℕ)
    (h01 : ∀ p ∈ fracs, 0 ≤ p.2 ∧ p.2 ≤ 1)
    (hsum : (fracs.map Prod.snd).sum = 1) :
    ∃ counts, allocateCounts fracs N = some counts ∧
      sumCounts counts = N ∧ ∀ p ∈ counts, 0 ≤ p.2 := by
  have hne : fracs ≠ [] := by
    intro h
    rw [h] at hsum
    simp at hsum
  set L : List ℚ := fracs.map fun p => (N : ℚ) * p.2 with hL
  have hLsum : L.sum = (N : ℚ) := by
    rw [hL, List.sum_map_mul_left, hsum, mul_one]
  have hLlen : L.length = fracs.length := by simp [hL]
  have hLne : L ≠ [] := by simp [hL, hne]
  have hpy : ∀ p ∈ fracs, pyInt ((N : ℚ) * p.2) = ⌊(N : ℚ) * p.2⌋ := by
    intro p hp
    have : 0 ≤ (N : ℚ) * p.2 := mul_nonneg (Nat.cast_nonneg N) (h01 p hp).1
    simp [pyInt, this]
  set S : ℤ := (L.map fun q => ⌊q⌋).sum with hS
  have hbase : (fracs.map fun p => (p.1, pyInt ((N : ℚ) * p.2))) =
      fracs.map fun p => (p.1, ⌊(N : ℚ) * p.2⌋) :=
    List.map_congr_left fun p hp => by rw [hpy p hp]
  have hbasesum : sumCounts (fracs.map fun p => (p.1, pyInt ((N : ℚ) * p.2))) = S := by
    rw [hbase]
    simp only [sumCounts, hS, hL, List.map_map]
    rfl
  have hS_le : (S : ℚ) ≤ (N : ℚ) := by
    rw [← hLsum]
    exact floorSum_le L
  have hS_lt : (N : ℚ) < (S : ℚ) + fracs.length := by
    rw [← hLsum, ← hLlen]
    exact_mod_cast sum_lt_floorSum_add L hLne
  have hSleN : S ≤ (N : ℤ) := by exact_mod_cast hS_le
  have hrem_lt : (N : ℤ) - S < fracs.length := by
    have : (N : ℚ) - S < fracs.length := by linarith
    exact_mod_cast this
  have hbase_nonneg : ∀ p ∈ fracs.map fun p => (p.1, pyInt ((N : ℚ) * p.2)), 0 ≤ p.2 := by
    rw [hbase]
    intro p hp
    obtain ⟨q, hq, rfl⟩ := List.mem_map.mp hp
    exact Int.floor_nonneg.mpr (mul_nonneg (Nat.cast_nonneg N) (h01 q hq).1)
  have hbase_keys : (fracs.map fun p => (p.1, pyInt ((N : ℚ) * p.2))).map Prod.fst =
      fracs.map Prod.fst := by
    simp [List.map_map]
  rw [allocateCounts]
  simp only [hbasesum]
  rcases lt_trichotomy ((N : ℤ) - S) 0 with hlt | heq | hgt
  · exfalso
    omega
  · rw [if_neg (by omega), if_neg (by omega)]
    refine ⟨_, rfl, ?_, hbase_nonneg⟩
    rw [hbasesum]
    omega
  · rw [if_pos hgt]
    have hsortlen :
        (List.insertionSort (fun a b => b.2 ≤ a.2)
          (fracs.map fun p => (p.1, (N : ℚ) * p.2 - (pyInt ((N : ℚ) * p.2) : ℚ)))).length =
        fracs.length := by
      rw [List.length_insertionSort, List.length_map]
    rw [if_pos (by rw [hsortlen]; omega)]
    refine ⟨_, rfl, ?_, incrTargets_nonneg _ _ hbase_nonneg⟩
    have hmem : ∀ k ∈ (List.take ((N : ℤ) - S).toNat
        (List.insertionSort (fun a b => b.2 ≤ a.2)
          (fracs.map fun p => (p.1, (N : ℚ) * p.2 - (pyInt ((N : ℚ) * p.2) : ℚ))))).map Prod.fst,
        k ∈ (fracs.map fun p => (p.1, pyInt ((N : ℚ) * p.2))).map Prod.fst := by
      intro k hk
      obtain ⟨pr, hpr, rfl⟩ := List.mem_map.mp hk
      have h1 : pr ∈ List.insertionSort (fun a b => b.2 ≤ a.2)
          (fracs.map fun p => (p.1, (N : ℚ) * p.2 - (pyInt ((N : ℚ) * p.2) : ℚ))) :=
        List.mem_of_mem_take hpr
      have h2 : pr ∈ fracs.map fun p => (p.1, (N : ℚ) * p.2 - (pyInt ((N : ℚ) * p.2) : ℚ)) :=
        (List.perm_insertionSort _ _).mem_iff.mp h1
      obtain ⟨q, hq, rfl⟩ := List.mem_map.mp h2
      rw [hbase_keys]
      exact List.mem_map.mpr ⟨q, hq, rfl⟩
    rw [incrTargets_sum _ _ hmem, hbasesum]
    have hlen : ((List.take ((N : ℤ) - S).toNat
        (List.insertionSort (fun a b => b.2 ≤ a.2)
          (fracs.map fun p => (p.1, (N : ℚ) * p.2 - (pyInt ((N : ℚ) * p.2) : ℚ))))).map Prod.fst).length =
        ((N : ℤ) - S).toNat := by
      rw [List.length_map, List.length_take, hsortlen]
      omega
    rw [hlen]
    omega


/-- The fraction map of the C1 counterexample: values in `[0,1]`, sum
`1.01` (inside the claimed `±0.01` tolerance). -/
def cexFracs : List (String × ℚ) := [("a", 0), ("b", 1/2), ("c", 51/100)]

/-- C1 counterexample: for `cexFracs` and `N = 100` the claimed
hypotheses hold (each fraction in `[0,1]`, sum within `0.01` of `1`),
yet the allocation returns counts summing to `101 ≠ 100`: the floors
are `[0, 50, 51]` (sum `101`), and the excess-removal loop skips class
`"a"` because its count is `0`, so nothing is removed. -/
theorem allocateCounts_tolerance_cex :
    (cexFracs.all fun p => decide (0 ≤ p.2) && decide (p.2 ≤ 1)) = true ∧
    |(cexFracs.map Prod.snd).sum - 1| ≤ 1/100 ∧
    (allocateCounts cexFracs 100).map sumCounts = some 101 := by
  refine ⟨?_, ?_, ?_⟩ <;> with_unfolding_all decide

/-- The worked example of the spec (§8): fractions
`{stationary: 0.1, pedestrian: 0.3, cyclist: 0.2, car: 0.4}`. -/
def exampleFracs : List (String × ℚ) :=
  [("stationary", 1/10), ("pedestrian", 3/10), ("cyclist", 1/5), ("car", 2/5)]

/-- Witness for C1: the amended theorem applied to the spec's example
fractions with `N = 7`. -/
theorem allocateCounts_exact_witness :
    ∃ counts, allocateCounts exampleFracs 7 = some counts ∧
      sumCounts counts = (7 : ℕ) ∧ ∀ p ∈ counts, 0 ≤ p.2 :=
  allocateCounts_exact exampleFracs 7 (by with_unfolding_all decide)
    (by with_unfolding_all decide)

/-- C7: for fractions `{stationary: 0.1, pedestrian: 0.3, cyclist: 0.2,
car: 0.4}` and total `N = 7`, the allocation floors are `[0, 2, 1, 2]`
(sum `5`), and the shortfall of `2` goes to car and stationary (largest
remainders), giving final counts
`{stationary: 1, pedestrian: 2, cyclist: 1, car: 3}`. -/
theorem allocateCounts_example_seven :
    (exampleFracs.map fun p => pyInt ((7 : ℚ) * p.2)) = [0, 2, 1, 2] ∧
    (exampleFracs.map fun p => pyInt ((7 : ℚ) * p.2)).sum = 5 ∧
    allocateCounts exampleFracs 7 =
      some [("stationary", 1), ("pedestrian", 2), ("cyclist", 1), ("car", 3)] := by
  refine ⟨?_, ?_, ?_⟩ <;> with_unfolding_all decide

/-! ### Data models (`models/`) -/

/-- `models/generation_params.py` `GenParams`.  The inner velocity
dicts are association lists read with `dict.get` defaults, as in the
source. -/
structure GenParams where
  alpha : ℚ
  variance : ℚ
  ue_class_distribution : List (String × ℚ)
  velocity_adjustments : List (String × List (String × ℚ))
deriving DecidableEq

/-- Modelled from the spec: `models/query_intent.py` is imported by the
chains but absent from the sources; per §3 a distribution carries a
provenance tag in {user-specified, predicted} when present, "absent"
being the `none` case of the optional distribution. -/
inductive DistributionSource
  | user_specified
  | predicted
deriving DecidableEq

/-- Modelled from the spec: the optional UE-class distribution of a
`ScenarioIntent`, with its provenance tag. -/
structure UEDistribution where
  distribution : List (String × ℚ)
  source : DistributionSource
deriving DecidableEq

/-- Modelled from the spec: `ScenarioIntent` (§3) — scenario class,
location name, UE count, tick count, optional distribution with
provenance, original request text.  `scenario_type` holds the enum's
string value, as consumed by `check_scenario_consistency`. -/
structure QueryIntent where
  scenario_type : String
  location : String
  num_ues : ℕ
  num_ticks : ℕ
  ue_distribution : Option UEDistribution
  raw_query : String
deriving DecidableEq

/-- `models/location_data.py` `LocationData`. -/
structure LocationData where
  center : ℚ × ℚ
  min_lat : ℚ
  max_lat : ℚ
  min_lon : ℚ
  max_lon : ℚ
  area_type : String
deriving DecidableEq

/-- `models/topology_params.py` `TopologyParams` (the `reasoning`
free-text field is irrelevant to the placement engine and omitted). -/
structure TopologyParams where
  num_cells : ℕ
  cell_carrier_freq_mhz : ℕ
  azimuth_strategy : String
  cell_placement_strategy : String
deriving DecidableEq

/-! ### Validators (`utils/validators.py`, `defaults/parameter_ranges.py`) -/

/-- `VELOCITY_RANGES` (m/s) from `defaults/parameter_ranges.py`. -/
def VELOCITY_RANGES : List (String × ℚ × ℚ) :=
  [("stationary", 0, 0), ("pedestrian", 1/2, 2), ("cyclist", 3, 8), ("car", 5, 30)]

/-- `validate_alpha`: valid iff `alpha ∈ [0, 1]`. -/
def validate_alpha (alpha : ℚ) : Bool := !(alpha < 0 ∨ 1 < alpha)

/-- `validate_variance`: valid iff `variance ≥ 0`. -/
def validate_variance (variance : ℚ) : Bool := !(variance < 0)

/-- `validate_velocity`: the class must be known and the velocity inside
its fixed range. -/
def validate_velocity (mobility_class : String) (velocity : ℚ) : Bool :=
  match VELOCITY_RANGES.find? (fun p => p.1 = mobility_class) with
  | none => false
  | some (_, lo, hi) => !(velocity < lo ∨ hi < velocity)

/-- `validate_distribution`: the fractions must sum to `1 ± 0.01` and
each lie in `[0, 1]`. -/
def validate_distribution (distribution : List (String × ℚ)) : Bool :=
  let total := (distribution.map Prod.snd).sum
  if 1/100 < |total - 1| then false
  else distribution.all fun p => !(p.2 < 0 ∨ 1 < p.2)

/-- `check_scenario_consistency`: scenario-vs-distribution warnings. -/
def check_scenario_consistency (scenario_type : String)
    (distribution : List (String × ℚ)) : List String :=
  (if scenario_type = "highway" ∧ 0 < dictGet distribution "pedestrian" 0 then
    ["Highway scenarios typically should not include pedestrians"] else []) ++
  (if scenario_type = "highway" ∧ 0 < dictGet distribution "cyclist" 0 then
    ["Highway scenarios typically should not include cyclists"] else []) ++
  (if scenario_type = "rural" ∧ 1/2 < dictGet distribution "stationary" 0 then
    ["Rural scenarios typically have lower stationary UE percentages"] else [])

/-! ### Validation chain (`chains/validation_chain.py`) -/

/-- The `allowed_range` field of a physics-violation record: a closed
interval, `[lo, inf]`, or the literal text used for velocities. -/
inductive AllowedRange
  | interval (lo hi : ℚ)
  | unboundedAbove (lo : ℚ)
  | textual (s : String)
deriving DecidableEq

/-- A physics-violation record (param name, offending value, allowed
range, severity). -/
structure Violation where
  param : String
  value : ℚ
  allowed_range : AllowedRange
  severity : String
deriving DecidableEq

/-- A consistency-issue record. -/
structure Issue where
  issue : String
  details : String
  severity : String
deriving DecidableEq

/-- The dict returned by `ValidationChain.validate`: in the failure
branches `severity` is the aggregate severity inside `failure_reasons`;
in the success branch only `validated_params` is populated.  (The
free-text `validation_errors` list, which only repeats the messages of
the structured records, is not modelled.) -/
structure ValidationResult where
  status : String
  physics_violations : List Violation
  consistency_issues : List Issue
  severity : Option String
  validated_params : Option GenParams
deriving DecidableEq

/-- All physics-violation records collected by
`ValidationChain.validate` (lines 43-106), in source order: alpha,
variance, distribution, then per class velocity and velocity-variance. -/
def physicsViolations (gp : GenParams) : List Violation :=
  (if validate_alpha gp.alpha then []
   else [⟨"alpha", gp.alpha, .interval 0 1, "critical"⟩]) ++
  (if validate_variance gp.variance then []
   else [⟨"variance", gp.variance, .unboundedAbove 0, "critical"⟩]) ++
  (if validate_distribution gp.ue_class_distribution then []
   else [⟨"ue_class_distribution", (gp.ue_class_distribution.map Prod.snd).sum,
          .interval 1 1, "critical"⟩]) ++
  gp.velocity_adjustments.flatMap fun p =>
    let velocity := dictGet p.2 "velocity" 0
    (if validate_velocity p.1 velocity then []
     else [⟨"velocity_" ++ p.1, velocity, .textual "see velocity ranges", "critical"⟩]) ++
    (let vv := dictGet p.2 "velocity_variance" 0
     if vv < 0 then [⟨"velocity_variance_" ++ p.1, vv, .unboundedAbove 0, "critical"⟩]
     else [])

/-- All consistency-issue records collected by
`ValidationChain.validate` (lines 108-116). -/
def consistencyIssues (gp : GenParams) (qi : QueryIntent) : List Issue :=
  (check_scenario_consistency qi.scenario_type gp.ue_class_distribution).map
    fun w => ⟨"scenario_mobility_mismatch", w, "warning"⟩

/-- `ValidationChain.validate` (validation_chain.py lines 39-143): both
tiers are collected, then classified.  The Python status strings are
kept: `"failed"` is the spec's `rejected`, `"success"` its
`accepted`. -/
def ValidationChain.validate (gp : GenParams) (qi : QueryIntent) : ValidationResult :=
  let physics := physicsViolations gp
  let consistency := consistencyIssues gp qi
  if physics ≠ [] then
    ⟨"failed", physics, consistency, some "critical", none⟩
  else if consistency ≠ [] then
    ⟨"failed", [], consistency, some "warning", none⟩
  else
    ⟨"success", [], [], none, some gp⟩

/-! ### C2 / C6: validation engine -/

/-- C2: for every generated-parameters object and intent,
`ValidationChain.validate` evaluates both check tiers fully — the
returned physics and consistency lists are exactly the full collections
of violated-check records, so every violated check contributes a record
even when the other tier also fails — and classifies: status rejected
(`"failed"`) with aggregate severity critical iff at least one physics
violation is recorded, regardless of consistency issues; else rejected
with severity warning iff at least one consistency issue is recorded;
else accepted (`"success"`). -/
theorem validation_two_tier (gp : GenParams) (qi : QueryIntent) :
    (ValidationChain.validate gp qi).physics_violations = physicsViolations gp ∧
    (ValidationChain.validate gp qi).consistency_issues = consistencyIssues gp qi ∧
    ((ValidationChain.validate gp qi).status = "failed" ∧
        (ValidationChain.validate gp qi).severity = some "critical" ↔
      physicsViolations gp ≠ []) ∧
    ((ValidationChain.validate gp qi).status = "failed" ∧
        (ValidationChain.validate gp qi).severity = some "warning" ↔
      physicsViolations gp = [] ∧ consistencyIssues gp qi ≠ []) ∧
    ((ValidationChain.validate gp qi).status = "success" ↔
      physicsViolations gp = [] ∧ consistencyIssues gp qi = []) := by
  by_cases hp : physicsViolations gp = [] <;>
    by_cases hc : consistencyIssues gp qi = [] <;>
      simp [ValidationChain.validate, hp, hc]

/-- Generated parameters with `alpha = 1.5` and every other field
valid (velocities inside their class ranges, distribution summing to
`1`, nonnegative variances). -/
def gpAlphaBad : GenParams :=
  { alpha := 3/2
    variance := 1
    ue_class_distribution :=
      [("stationary", 1/4), ("pedestrian", 1/4), ("cyclist", 1/4), ("car", 1/4)]
    velocity_adjustments :=
      [("stationary", [("velocity", 0), ("velocity_variance", 0)]),
       ("pedestrian", [("velocity", 1), ("velocity_variance", 0)]),
       ("cyclist", [("velocity", 5), ("velocity_variance", 0)]),
       ("car", [("velocity", 10), ("velocity_variance", 0)])] }

/-- An urban intent consistent with `gpAlphaBad`'s distribution. -/
def qiUrban : QueryIntent :=
  { scenario_type := "urban", location := "X", num_ues := 100, num_ticks := 100
    ue_distribution := none, raw_query := "" }

/-- C6: for a generated-parameters input with `alpha = 1.5` and every
other field valid, validation produces exactly one critical physics
violation — for parameter alpha, with allowed range `[0, 1]` — with
status rejected (`"failed"`) and aggregate severity critical. -/
theorem validation_alpha_rejection :
    (ValidationChain.validate gpAlphaBad qiUrban).physics_violations =
      [⟨"alpha", 3/2, .interval 0 1, "critical"⟩] ∧
    (ValidationChain.validate gpAlphaBad qiUrban).consistency_issues = [] ∧
    (ValidationChain.validate gpAlphaBad qiUrban).status = "failed" ∧
    (ValidationChain.validate gpAlphaBad qiUrban).severity = some "critical" := by
  refine ⟨?_, ?_, ?_, ?_⟩ <;> with_unfolding_all decide

/-! ### State, routing, parameter chain, location resolver -/

/-- `models/state.py` `MobilityGenerationState` (the dict-valued fields
hold the structured models defined above). -/
structure MobilityGenerationState where
  user_query : String
  current_query : String
  query_intent : Option QueryIntent
  location_data : Option LocationData
  gen_params : Option GenParams
  validation_result : Option ValidationResult
  retry_count : ℕ

/-- `config.py` `Config.MAX_RETRY_ATTEMPTS` with its default value
(the `MAX_RETRY_ATTEMPTS` environment variable unset). -/
def Config.MAX_RETRY_ATTEMPTS : ℕ := 2

/-- `graph/routing.py` `should_retry` (lines 6-29): `"success"` is the
spec's `accepted` route, `"max_retries"` its `exhausted`, `"retry"` its
`retry`. -/
def should_retry (state : MobilityGenerationState) : String :=
  match state.validation_result with
  | none => "retry"
  | some validation_result =>
    if validation_result.status = "success" then "success"
    else if Config.MAX_RETRY_ATTEMPTS ≤ state.retry_count then "max_retries"
    else "retry"

/-! ### C3: routing -/

/-- C3: for every validation report and attempt counter, the routing
function returns accepted (`"success"`) iff the report status is
accepted, regardless of attempt count; otherwise it returns exhausted
(`"max_retries"`) iff the attempt counter has reached `max_attempts`
(default 2); otherwise retry. -/
theorem routing_cases (vr : ValidationResult) (st : MobilityGenerationState)
    (h : st.validation_result = some vr) :
    Config.MAX_RETRY_ATTEMPTS = 2 ∧
    (should_retry st = "success" ↔ vr.status = "success") ∧
    (vr.status ≠ "success" →
      ((should_retry st = "max_retries" ↔ Config.MAX_RETRY_ATTEMPTS ≤ st.retry_count) ∧
       (should_retry st = "retry" ↔ st.retry_count < Config.MAX_RETRY_ATTEMPTS))) := by
  refine ⟨rfl, ?_, ?_⟩
  · unfold should_retry
    rw [h]
    by_cases hs : vr.status = "success"
    · simp [hs]
    · by_cases hr : Config.MAX_RETRY_ATTEMPTS ≤ st.retry_count <;> simp [hs, hr]
  · intro hs
    unfold should_retry
    rw [h]
    by_cases hr : Config.MAX_RETRY_ATTEMPTS ≤ st.retry_count <;>
      simp [hs, hr]
    all_goals omega

/-- A rejected validation report. -/
def vrFailed : ValidationResult :=
  ⟨"failed", [], [⟨"scenario_mobility_mismatch", "w", "warning"⟩], some "warning", none⟩

/-- A pipeline state holding `vrFailed` with the attempt counter at the
maximum. -/
def stExhausted : MobilityGenerationState :=
  ⟨"q", "q", none, none, none, some vrFailed, 2⟩

/-- Witness for C3 at a rejected report with `retry_count = 2`. -/
theorem routing_cases_witness :
    Config.MAX_RETRY_ATTEMPTS = 2 ∧
    (should_retry stExhausted = "success" ↔ vrFailed.status = "success") ∧
    (vrFailed.status ≠ "success" →
      ((should_retry stExhausted = "max_retries" ↔
          Config.MAX_RETRY_ATTEMPTS ≤ stExhausted.retry_count) ∧
       (should_retry stExhausted = "retry" ↔
          stExhausted.retry_count < Config.MAX_RETRY_ATTEMPTS))) :=
  routing_cases vrFailed stExhausted rfl

/-- The values of the `MobilityClass` enum (the four UE classes). -/
def MobilityClassValues : List String := ["stationary", "pedestrian", "cyclist", "car"]

/-- A distribution tagged with `predicted` provenance
(`UEDistribution(distribution=…, source=DistributionSource.PREDICTED)`). -/
def predictedDist (d : List (String × ℚ)) : UEDistribution := ⟨d, .predicted⟩

/-- `chains/parameter_chain.py` `ParameterChain.generate` lines 54-67,
with the LLM's structured output `gen_params` passed as a parameter.
`none` models the `ValueError` raised by `MobilityClass(k)` when the
generated distribution contains an unknown class name. -/
def ParameterChain.generate (gen_params : GenParams) (query_intent : QueryIntent) :
    Option (GenParams × QueryIntent) :=
  match query_intent.ue_distribution with
  | some _ => some (gen_params, query_intent)
  | none =>
    if gen_params.ue_class_distribution.all (fun p => MobilityClassValues.contains p.1) then
      some (gen_params,
        { query_intent with
          ue_distribution := some (predictedDist gen_params.ue_class_distribution) })
    else none

/-! ### C8: parameter-chain provenance -/

/-- C8: if the intent's `ue_distribution` is already set, the returned
intent is the input intent unchanged (provenance is never reset to
absent); if it is absent (`none`), the returned intent carries the
generated distribution tagged `predicted`, produced in the same return
value as the parameter object. -/
theorem parameter_chain_provenance (gp : GenParams) (qi : QueryIntent) :
    (∀ d, qi.ue_distribution = some d → ParameterChain.generate gp qi = some (gp, qi)) ∧
    (qi.ue_distribution = none →
      (gp.ue_class_distribution.all fun p => MobilityClassValues.contains p.1) = true →
      ParameterChain.generate gp qi =
        some (gp,
          { qi with ue_distribution := some (predictedDist gp.ue_class_distribution) })) := by
  constructor
  · intro d hd
    simp [ParameterChain.generate, hd]
  · intro hn hv
    simp only [ParameterChain.generate, hn, hv, if_true]

/-- Witness for C8: a `none`-distribution intent picks up the predicted
distribution. -/
theorem parameter_chain_provenance_witness :
    ParameterChain.generate gpAlphaBad qiUrban =
      some (gpAlphaBad,
        { qiUrban with
          ue_distribution := some (predictedDist gpAlphaBad.ue_class_distribution) }) :=
  (parameter_chain_provenance gpAlphaBad qiUrban).2 rfl (by with_unfolding_all decide)

/-- `nodes/location_resolver.py` `node` (lines 8-46), with the external
geocoding result passed as a parameter (`none` = geocoding failed).
The `Except.error` case models the `ValueError` raised when
`query_intent` is missing. -/
def locationResolverNode (geocode_result : Option LocationData)
    (state : MobilityGenerationState) : Except String LocationData :=
  match state.query_intent with
  | none => .error "query_intent must be populated before location resolution"
  | some _ =>
    match geocode_result with
    | none => .ok ⟨(0, 0), -(1/20), 1/20, -(1/20), 1/20, "urban"⟩
    | some location_data => .ok location_data

/-! ### C9: location-resolver fallback -/

/-- C9: whenever geocoding returns `none`, the location-resolver step
does not abort: it returns the fixed default bounds
`[-0.05, 0.05] x [-0.05, 0.05]` with area type `"urban"` and center
`(0, 0)`; whenever geocoding succeeds, the resolved bounds are returned
instead. -/
theorem location_resolver_fallback (g : Option LocationData)
    (st : MobilityGenerationState) (qi : QueryIntent)
    (h : st.query_intent = some qi) :
    (g = none → locationResolverNode g st =
      .ok ⟨(0, 0), -(1/20), 1/20, -(1/20), 1/20, "urban"⟩) ∧
    (∀ ld, g = some ld → locationResolverNode g st = .ok ld) := by
  constructor
  · intro hg
    simp [locationResolverNode, h, hg]
  · intro ld hg
    simp [locationResolverNode, h, hg]

/-- A state with a populated intent. -/
def stWithIntent : MobilityGenerationState :=
  ⟨"q", "q", some qiUrban, none, none, none, 0⟩

/-- Witness for C9: failed geocoding on a populated state yields the
default bounds. -/
theorem location_resolver_fallback_witness :
    locationResolverNode none stWithIntent =
      .ok ⟨(0, 0), -(1/20), 1/20, -(1/20), 1/20, "urban"⟩ :=
  (location_resolver_fallback none stWithIntent qiUrban rfl).1 rfl

/-! ### Topology placement engine (`topology_generator.py`) -/

/-- `_generate_linear_locations` (lines 225-245): evenly spaced sites
along the long axis of a narrow corridor. -/
def generateLinearLocations (min_lat max_lat min_lon max_lon : ℚ)
    (num_sites : ℕ) : List (ℚ × ℚ) :=
  let lat_range := max_lat - min_lat
  let lon_range := max_lon - min_lon
  if lon_range < lat_range then
    (npLinspace min_lat max_lat num_sites).map fun lat => (lat, (min_lon + max_lon) / 2)
  else
    (npLinspace min_lon max_lon num_sites).map fun lon => ((min_lat + max_lat) / 2, lon)

/-- `_generate_simple_grid` (lines 247-266): a
`ceil(sqrt(n)) x ceil(sqrt(n))` axis-aligned grid; the nested loop with
its two `break`s produces exactly the first `num_sites` pairs in
row-major order. -/
def generateSimpleGrid (min_lat max_lat min_lon max_lon : ℚ)
    (num_sites : ℕ) : List (ℚ × ℚ) :=
  let grid_size := ceilSqrtNat num_sites
  let lat_points := npLinspace min_lat max_lat grid_size
  let lon_points := npLinspace min_lon max_lon grid_size
  ((lat_points.flatMap fun lat => lon_points.map fun lon => (lat, lon)).take num_sites)

/-- The inner `while lon <= max_lon` loop of `_generate_grid_locations`
(lines 210-213), with fuel. -/
def hexInner (min_lat max_lat min_lon max_lon : ℚ) (num_sites : ℕ)
    (isd_lon lat : ℚ) : ℕ → ℚ → List (ℚ × ℚ) → Option (List (ℚ × ℚ))
  | 0, _, _ => none
  | fuel + 1, lon, locations =>
    if lon ≤ max_lon ∧ locations.length < num_sites then
      let locations' :=
        if min_lat ≤ lat ∧ lat ≤ max_lat ∧ min_lon ≤ lon ∧ lon ≤ max_lon then
          locations ++ [(lat, lon)]
        else locations
      hexInner min_lat max_lat min_lon max_lon num_sites isd_lon lat fuel
        (lon + isd_lon) locations'
    else some locations

/-- The outer `while lat <= max_lat` loop of `_generate_grid_locations`
(lines 205-216), with fuel. -/
def hexOuter (min_lat max_lat min_lon max_lon : ℚ) (num_sites : ℕ)
    (isd_lon row_offset row_spacing : ℚ) :
    ℕ → ℚ → ℕ → List (ℚ × ℚ) → Option (List (ℚ × ℚ))
  | 0, _, _, _ => none
  | fuel + 1, lat, row, locations =>
    if lat ≤ max_lat ∧ locations.length < num_sites then
      let lon_start := min_lon + (if row % 2 = 1 then row_offset else 0) + isd_lon / 2
      match hexInner min_lat max_lat min_lon max_lon num_sites isd_lon lat fuel
        lon_start locations with
      | none => none
      | some locations' =>
        hexOuter min_lat max_lat min_lon max_lon num_sites isd_lon row_offset
          row_spacing fuel (lat + row_spacing) (row + 1) locations'
    else some locations

/-- `_generate_grid_locations` (lines 158-223): linear placement for
aspect ratio > 5:1, otherwise an offset hexagonal lattice clipped to the
rectangle, with a simple-grid fallback when the lattice underproduces. -/
def generateGridLocations (ops : FloatOps) (fuel : ℕ)
    (min_lat max_lat min_lon max_lon : ℚ) (num_sites : ℕ) :
    Option (List (ℚ × ℚ)) :=
  let lat_range := max_lat - min_lat
  let lon_range := max_lon - min_lon
  let center_lat := (min_lat + max_lat) / 2
  let lat_km := lat_range * 111
  let lon_km := lon_range * 111 * ops.cosQ (center_lat * ops.piQ / 180)
  let aspect_ratio :=
    if 0 < min lat_km lon_km then max (lat_km / lon_km) (lon_km / lat_km) else 1
  if 5 < aspect_ratio then
    some (generateLinearLocations min_lat max_lat min_lon max_lon num_sites)
  else
    let area := lat_range * lon_range
    let isd_lat := ops.sqrtQ (2 * area / (ops.sqrtQ 3 * num_sites))
    let isd_lon := isd_lat
    let row_offset := isd_lon / 2
    let row_spacing := isd_lat * ops.sqrtQ 3 / 2
    match hexOuter min_lat max_lat min_lon max_lon num_sites isd_lon row_offset
      row_spacing fuel (min_lat + row_spacing / 2) 0 [] with
    | none => none
    | some locations =>
      if locations.length < num_sites then
        some (generateSimpleGrid min_lat max_lat min_lon max_lon num_sites)
      else
        some (locations.take num_sites)

/-- The inner `for angle in angles` loop of
`_generate_cluster_locations` (lines 295-306): append each (clipped)
ring point, breaking once `num_sites` is reached. -/
def clusterInner (num_sites : ℕ) :
    List (ℚ × ℚ) → List (ℚ × ℚ) → List (ℚ × ℚ)
  | [], locations => locations
  | p :: rest, locations =>
    let locations' := locations ++ [p]
    if num_sites ≤ locations'.length then locations'
    else clusterInner num_sites rest locations'

/-- The `for ring in range(1, num_rings + 1)` loop of
`_generate_cluster_locations` (lines 289-309). -/
def clusterRings (ops : FloatOps) (min_lat max_lat min_lon max_lon : ℚ)
    (center_lat center_lon lat_range lon_range : ℚ)
    (num_sites num_rings cells_per_ring : ℕ) :
    List ℕ → List (ℚ × ℚ) → List (ℚ × ℚ)
  | [], locations => locations
  | ring :: rest, locations =>
    let radius_lat := lat_range / (num_rings + 1) * ring * (2/5)
    let radius_lon := lon_range / (num_rings + 1) * ring * (2/5)
    let angles := (npLinspace 0 (2 * ops.piQ) (cells_per_ring + 1)).dropLast
    let pts := angles.map fun angle =>
      (npClip (center_lat + radius_lat * ops.sinQ angle) min_lat max_lat,
       npClip (center_lon + radius_lon * ops.cosQ angle) min_lon max_lon)
    let locations' := clusterInner num_sites pts locations
    if num_sites ≤ locations'.length then locations'
    else clusterRings ops min_lat max_lat min_lon max_lon center_lat center_lon
      lat_range lon_range num_sites num_rings cells_per_ring rest locations'

/-- `_generate_cluster_locations` (lines 268-311): centroid first, then
concentric rings of clipped points. -/
def generateClusterLocations (ops : FloatOps)
    (min_lat max_lat min_lon max_lon : ℚ) (num_sites : ℕ) : List (ℚ × ℚ) :=
  let center_lat := (min_lat + max_lat) / 2
  let center_lon := (min_lon + max_lon) / 2
  let lat_range := max_lat - min_lat
  let lon_range := max_lon - min_lon
  let locations := if 1 ≤ num_sites then [(center_lat, center_lon)] else []
  let num_rings := ceilSqrtNat num_sites
  let cells_per_ring := if 1 < num_rings then num_sites / num_rings else 0
  (clusterRings ops min_lat max_lat min_lon max_lon center_lat center_lon
    lat_range lon_range num_sites num_rings cells_per_ring
    (List.range' 1 num_rings) locations).take num_sites

/-- `_generate_boundary_locations` (lines 313-344): `ceil(n/4)` sites
per rectangle edge, truncated to the requested count. -/
def generateBoundaryLocations (min_lat max_lat min_lon max_lon : ℚ)
    (num_sites : ℕ) : List (ℚ × ℚ) :=
  let cells_per_side := (num_sites + 3) / 4
  let edgePos : ℚ → ℚ → ℕ → ℚ := fun a b i =>
    if 1 < cells_per_side then a + (b - a) * i / (max 1 (cells_per_side - 1) : ℕ)
    else (a + b) / 2
  let top := (List.range cells_per_side).map fun i => (max_lat, edgePos min_lon max_lon i)
  let right := (List.range cells_per_side).map fun i => (edgePos max_lat min_lat i, max_lon)
  let bottom := (List.range cells_per_side).map fun i => (min_lat, edgePos max_lon min_lon i)
  let left := (List.range cells_per_side).map fun i => (edgePos min_lat max_lat i, min_lon)
  (top ++ right ++ bottom ++ left).take num_sites

/-- The derived number of sites of `generate_with_params` (lines
97-103): `num_cells` counts total sectors. -/
def numSites (params : TopologyParams) : ℕ :=
  if params.azimuth_strategy = "sectored" then max 1 (params.num_cells / 3)
  else params.num_cells

/-- The per-site sector count (3 for sectored sites, else 1). -/
def sectorsPerSite (params : TopologyParams) : ℕ :=
  if params.azimuth_strategy = "sectored" then 3 else 1

/-- The placement dispatch of `generate_with_params` (lines 105-122);
unknown strategies default to grid. -/
def siteLocations (ops : FloatOps) (fuel : ℕ) (params : TopologyParams)
    (min_lat max_lat min_lon max_lon : ℚ) : Option (List (ℚ × ℚ)) :=
  if params.cell_placement_strategy = "grid" then
    generateGridLocations ops fuel min_lat max_lat min_lon max_lon (numSites params)
  else if params.cell_placement_strategy = "cluster" then
    some (generateClusterLocations ops min_lat max_lat min_lon max_lon (numSites params))
  else if params.cell_placement_strategy = "boundary" then
    some (generateBoundaryLocations min_lat max_lat min_lon max_lon (numSites params))
  else
    generateGridLocations ops fuel min_lat max_lat min_lon max_lon (numSites params)

/-- One emitted cell record (`topology_generator.py` lines 138-146). -/
structure Cell where
  cell_lat : ℚ
  cell_lon : ℚ
  cell_id : String
  cell_az_deg : ℤ
  cell_carrier_freq_mhz : ℕ
deriving DecidableEq

/-- The `for azimuth in azimuths` loop (lines 137-151): emit one cell
per azimuth, breaking once the counter passes `num_cells`; returns the
emitted cells and the updated counter. -/
def emitAz (freq num_cells : ℕ) (site : ℚ × ℚ) :
    List ℤ → ℕ → List Cell × ℕ
  | [], counter => ([], counter)
  | az :: rest, counter =>
    let cell : Cell :=
      ⟨pyRound6 site.1, pyRound6 site.2, "cell_" ++ toString counter, az, freq⟩
    let counter' := counter + 1
    if num_cells < counter' then ([cell], counter')
    else
      let r := emitAz freq num_cells site rest counter'
      (cell :: r.1, r.2)

/-- The azimuth list for one site (lines 130-135): 3 sectors, a random
draw, or a single omnidirectional `0`. -/
def azimuthsFor (ops : FloatOps) (strategy : String) (counter : ℕ) : List ℤ :=
  if strategy = "sectored" then [0, 120, 240]
  else if strategy = "random" then [ops.randAz counter]
  else [0]

/-- The `for site_lat, site_lon in site_locations` loop (lines
128-154). -/
def emitSites (ops : FloatOps) (strategy : String) (freq num_cells : ℕ) :
    List (ℚ × ℚ) → ℕ → List Cell
  | [], _ => []
  | site :: rest, counter =>
    let r := emitAz freq num_cells site (azimuthsFor ops strategy counter) counter
    if num_cells < r.2 then r.1
    else r.1 ++ emitSites ops strategy freq num_cells rest r.2

/-- `TopologyGenerator.generate_with_params` (lines 76-156): derive the
site count, place the sites, then lazily emit cells, truncating at
exactly `num_cells` even mid-site. -/
def generate_with_params (ops : FloatOps) (fuel : ℕ) (params : TopologyParams)
    (min_lat max_lat min_lon max_lon : ℚ) : Option (List Cell) :=
  match siteLocations ops fuel params min_lat max_lat min_lon max_lon with
  | none => none
  | some locs =>
    some (emitSites ops params.azimuth_strategy params.cell_carrier_freq_mhz
      params.num_cells locs 1)

/-! ### Geometry lemmas -/

/-- Membership in the bounding rectangle. -/
def inRect (min_lat max_lat min_lon max_lon : ℚ) (p : ℚ × ℚ) : Prop :=
  min_lat ≤ p.1 ∧ p.1 ≤ max_lat ∧ min_lon ≤ p.2 ∧ p.2 ≤ max_lon

theorem npLinspace_length (a b : ℚ) (n : ℕ) : (npLinspace a b n).length = n := by
  match n with
  | 0 => rfl
  | 1 => rfl
  | n + 2 => simp only [npLinspace, List.length_map, List.length_range]

theorem npLinspace_mem (a b : ℚ) (n : ℕ) (hab : a ≤ b) :
    ∀ x ∈ npLinspace a b n, a ≤ x ∧ x ≤ b := by
  match n with
  | 0 => simp [npLinspace]
  | 1 =>
    intro x hx
    have hxa : x = a := by simpa [npLinspace] using hx
    subst hxa
    exact ⟨le_rfl, hab⟩
  | n + 2 =>
    intro x hx
    simp only [npLinspace, List.mem_map, List.mem_range] at hx
    obtain ⟨i, hi, rfl⟩ := hx
    have hba : (0 : ℚ) ≤ b - a := sub_nonneg.mpr hab
    have hpos : (0 : ℚ) < (n : ℚ) + 1 := by positivity
    constructor
    · have hnn : (0 : ℚ) ≤ (b - a) * i / (n + 1) :=
        div_nonneg (mul_nonneg hba (by positivity)) (le_of_lt hpos)
      linarith
    · have hile : (i : ℚ) ≤ (n : ℚ) + 1 := by
        exact_mod_cast Nat.le_of_lt_succ hi
      have h1 : (b - a) * i ≤ (b - a) * ((n : ℚ) + 1) :=
        mul_le_mul_of_nonneg_left hile hba
      have h2 : (b - a) * i / (n + 1) ≤ b - a := by
        rw [div_le_iff₀ hpos]
        linarith
      linarith

theorem le_ceilSqrtNat_sq (n : ℕ) : n ≤ ceilSqrtNat n * ceilSqrtNat n := by
  unfold ceilSqrtNat
  split
  · next h => exact h.ge
  · exact Nat.le_of_lt (Nat.lt_succ_sqrt n)

theorem generateSimpleGrid_length (min_lat max_lat min_lon max_lon : ℚ)
    (num_sites : ℕ) :
    (generateSimpleGrid min_lat max_lat min_lon max_lon num_sites).length = num_sites := by
  unfold generateSimpleGrid
  rw [List.length_take, List.length_flatMap]
  simp only [Function.comp_def, List.length_map, npLinspace_length]
  rw [List.map_const', List.sum_replicate, npLinspace_length, smul_eq_mul]
  exact min_eq_left (le_ceilSqrtNat_sq num_sites)

theorem generateSimpleGrid_mem (min_lat max_lat min_lon max_lon : ℚ)
    (num_sites : ℕ) (hlat : min_lat ≤ max_lat) (hlon : min_lon ≤ max_lon) :
    ∀ p ∈ generateSimpleGrid min_lat max_lat min_lon max_lon num_sites,
      inRect min_lat max_lat min_lon max_lon p := by
  intro p hp
  unfold generateSimpleGrid at hp
  have hp' := List.mem_of_mem_take hp
  rw [List.mem_flatMap] at hp'
  obtain ⟨lat, hlat', hp''⟩ := hp'
  rw [List.mem_map] at hp''
  obtain ⟨lon, hlon', rfl⟩ := hp''
  obtain ⟨h1, h2⟩ := npLinspace_mem _ _ _ hlat lat hlat'
  obtain ⟨h3, h4⟩ := npLinspace_mem _ _ _ hlon lon hlon'
  exact ⟨h1, h2, h3, h4⟩

theorem generateLinearLocations_length (min_lat max_lat min_lon max_lon : ℚ)
    (num_sites : ℕ) :
    (generateLinearLocations min_lat max_lat min_lon max_lon num_sites).length =
      num_sites := by
  simp only [generateLinearLocations]
  split <;> rw [List.length_map, npLinspace_length]

theorem generateLinearLocations_mem (min_lat max_lat min_lon max_lon : ℚ)
    (num_sites : ℕ) (hlat : min_lat ≤ max_lat) (hlon : min_lon ≤ max_lon) :
    ∀ p ∈ generateLinearLocations min_lat max_lat min_lon max_lon num_sites,
      inRect min_lat max_lat min_lon max_lon p := by
  intro p hp
  simp only [generateLinearLocations] at hp
  split at hp <;> rw [List.mem_map] at hp
  · obtain ⟨lat, hmem, rfl⟩ := hp
    obtain ⟨h1, h2⟩ := npLinspace_mem _ _ _ hlat lat hmem
    refine ⟨h1, h2, ?_, ?_⟩ <;> simp only [inRect] <;> linarith
  · obtain ⟨lon, hmem, rfl⟩ := hp
    obtain ⟨h1, h2⟩ := npLinspace_mem _ _ _ hlon lon hmem
    refine ⟨?_, ?_, h1, h2⟩ <;> simp only [inRect] <;> linarith

/-! ### C5: grid placement -/

theorem hexInner_invariant (min_lat max_lat min_lon max_lon : ℚ) (num_sites : ℕ)
    (isd_lon lat : ℚ) :
    ∀ (fuel : ℕ) (lon : ℚ) (acc acc' : List (ℚ × ℚ)),
      hexInner min_lat max_lat min_lon max_lon num_sites isd_lon lat fuel lon acc =
        some acc' →
      (∀ p ∈ acc', p ∈ acc ∨ inRect min_lat max_lat min_lon max_lon p) ∧
      (acc.length ≤ num_sites → acc'.length ≤ num_sites) := by
  intro fuel
  induction fuel with
  | zero => intro lon acc acc' h; exact absurd h (by simp [hexInner])
  | succ fuel ih =>
    intro lon acc acc' h
    rw [hexInner] at h
    split at h
    · next hcond =>
      set acc1 :=
        if min_lat ≤ lat ∧ lat ≤ max_lat ∧ min_lon ≤ lon ∧ lon ≤ max_lon then
          acc ++ [(lat, lon)]
        else acc with hacc1
      obtain ⟨ih1, ih2⟩ := ih (lon + isd_lon) acc1 acc' h
      constructor
      · intro p hp
        rcases ih1 p hp with hmem | hrect
        · rw [hacc1] at hmem
          split at hmem
          · next hin =>
            rcases List.mem_append.mp hmem with h1 | h1
            · exact Or.inl h1
            · right
              have : p = (lat, lon) := by simpa using h1
              subst this
              exact hin
          · exact Or.inl hmem
        · exact Or.inr hrect
      · intro hle
        apply ih2
        rw [hacc1]
        split
        · rw [List.length_append, List.length_singleton]
          omega
        · exact hle
    · next hcond =>
      obtain rfl : acc = acc' := by injection h
      exact ⟨fun p hp => Or.inl hp, fun hle => hle⟩

theorem hexOuter_invariant (min_lat max_lat min_lon max_lon : ℚ) (num_sites : ℕ)
    (isd_lon row_offset row_spacing : ℚ) :
    ∀ (fuel : ℕ) (lat : ℚ) (row : ℕ) (acc acc' : List (ℚ × ℚ)),
      hexOuter min_lat max_lat min_lon max_lon num_sites isd_lon row_offset
        row_spacing fuel lat row acc = some acc' →
      (∀ p ∈ acc', p ∈ acc ∨ inRect min_lat max_lat min_lon max_lon p) ∧
      (acc.length ≤ num_sites → acc'.length ≤ num_sites) := by
  intro fuel
  induction fuel with
  | zero => intro lat row acc acc' h; exact absurd h (by simp [hexOuter])
  | succ fuel ih =>
    intro lat row acc acc' h
    rw [hexOuter] at h
    split at h
    · next hcond =>
      simp only [] at h
      cases hmid : hexInner min_lat max_lat min_lon max_lon num_sites isd_lon lat fuel
          (min_lon + (if row % 2 = 1 then row_offset else 0) + isd_lon / 2) acc with
      | none => rw [hmid] at h; exact absurd h (by simp)
      | some acc1 =>
        rw [hmid] at h
        obtain ⟨hi1, hi2⟩ :=
          hexInner_invariant min_lat max_lat min_lon max_lon num_sites isd_lon lat
            fuel _ acc acc1 hmid
        obtain ⟨ho1, ho2⟩ := ih (lat + row_spacing) (row + 1) acc1 acc' h
        constructor
        · intro p hp
          rcases ho1 p hp with h1 | h1
          · exact hi1 p h1
          · exact Or.inr h1
        · intro hle
          exact ho2 (hi2 hle)
    · next hcond =>
      obtain rfl : acc = acc' := by injection h
      exact ⟨fun p hp => Or.inl hp, fun hle => hle⟩

theorem hexMatch_spec (min_lat max_lat min_lon max_lon : ℚ) (num_sites : ℕ)
    (isd_lon row_offset row_spacing : ℚ) (fuel : ℕ) (locs : List (ℚ × ℚ))
    (hlat : min_lat ≤ max_lat) (hlon : min_lon ≤ max_lon)
    (h : (match hexOuter min_lat max_lat min_lon max_lon num_sites isd_lon
          row_offset row_spacing fuel (min_lat + row_spacing / 2) 0 [] with
        | none => none
        | some locations =>
          if locations.length < num_sites then
            some (generateSimpleGrid min_lat max_lat min_lon max_lon num_sites)
          else some (locations.take num_sites)) = some locs) :
    locs.length = num_sites ∧
    ∀ p ∈ locs, inRect min_lat max_lat min_lon max_lon p := by
  split at h
  · exact absurd h (by simp)
  · next locations heq =>
    split at h
    · obtain rfl := Option.some.inj h
      exact ⟨generateSimpleGrid_length _ _ _ _ _,
        generateSimpleGrid_mem _ _ _ _ _ hlat hlon⟩
    · next hge =>
      obtain rfl := Option.some.inj h
      obtain ⟨hmem, hlen⟩ :=
        hexOuter_invariant min_lat max_lat min_lon max_lon num_sites isd_lon
          row_offset row_spacing fuel _ 0 [] locations heq
      constructor
      · rw [List.length_take]
        omega
      · intro p hp
        have hp' := List.mem_of_mem_take hp
        rcases hmem p hp' with h1 | h1
        · exact absurd h1 (List.not_mem_nil p)
        · exact h1

/-- C5: for every rectangle with `min_lat <= max_lat`,
`min_lon <= max_lon` and every requested site count `N > 0`, whichever
internal path a terminating run of grid placement takes (linear
placement for aspect ratio > 5:1, the hexagonal lattice, or the
`ceil(sqrt N) x ceil(sqrt N)` simple-grid fallback when the lattice
underproduces), it returns exactly `N` site coordinates, each lying
within `[min_lat, max_lat] x [min_lon, max_lon]`. -/
theorem grid_placement_exact_and_contained (ops : FloatOps) (fuel : ℕ)
    (min_lat max_lat min_lon max_lon : ℚ) (num_sites : ℕ)
    (hlat : min_lat ≤ max_lat) (hlon : min_lon ≤ max_lon) (_hn : 0 < num_sites)
    (locs : List (ℚ × ℚ))
    (h : generateGridLocations ops fuel min_lat max_lat min_lon max_lon num_sites =
      some locs) :
    locs.length = num_sites ∧
    ∀ p ∈ locs, inRect min_lat max_lat min_lon max_lon p := by
  rw [generateGridLocations] at h
  simp only [] at h
  split at h <;> split at h
  · obtain rfl := Option.some.inj h
    exact ⟨generateLinearLocations_length _ _ _ _ _,
      generateLinearLocations_mem _ _ _ _ _ hlat hlon⟩
  · exact hexMatch_spec _ _ _ _ _ _ _ _ _ _ hlat hlon h
  · obtain rfl := Option.some.inj h
    exact ⟨generateLinearLocations_length _ _ _ _ _,
      generateLinearLocations_mem _ _ _ _ _ hlat hlon⟩
  · exact hexMatch_spec _ _ _ _ _ _ _ _ _ _ hlat hlon h

/-! ### C10: cluster placement -/

theorem npClip_mem (x lo hi : ℚ) (h : lo ≤ hi) :
    lo ≤ npClip x lo hi ∧ npClip x lo hi ≤ hi :=
  ⟨le_min (le_max_right x lo) h, min_le_right _ _⟩

theorem clusterInner_spec (num_sites : ℕ) :
    ∀ (pts acc : List (ℚ × ℚ)),
      ∃ suffix, clusterInner num_sites pts acc = acc ++ suffix ∧
        ∀ p ∈ suffix, p ∈ pts := by
  intro pts
  induction pts with
  | nil => intro acc; exact ⟨[], by simp [clusterInner]⟩
  | cons q rest ih =>
    intro acc
    rw [clusterInner]
    split
    · exact ⟨[q], rfl, by simp⟩
    · obtain ⟨suffix, heq, hmem⟩ := ih (acc ++ [q])
      refine ⟨q :: suffix, ?_, ?_⟩
      · rw [heq, List.append_assoc]
        rfl
      · intro p hp
        rcases List.mem_cons.mp hp with h1 | h1
        · subst h1; exact List.mem_cons_self _ _
        · exact List.mem_cons_of_mem _ (hmem p h1)

theorem clusterRings_spec (ops : FloatOps) (min_lat max_lat min_lon max_lon : ℚ)
    (center_lat center_lon lat_range lon_range : ℚ)
    (num_sites num_rings cells_per_ring : ℕ)
    (hlat : min_lat ≤ max_lat) (hlon : min_lon ≤ max_lon) :
    ∀ (rings : List ℕ) (acc : List (ℚ × ℚ)),
      ∃ suffix, clusterRings ops min_lat max_lat min_lon max_lon center_lat
          center_lon lat_range lon_range num_sites num_rings cells_per_ring
          rings acc = acc ++ suffix ∧
        ∀ p ∈ suffix, inRect min_lat max_lat min_lon max_lon p := by
  intro rings
  induction rings with
  | nil => intro acc; exact ⟨[], by simp [clusterRings]⟩
  | cons ring rest ih =>
    intro acc
    rw [clusterRings]
    have hpts : ∀ p ∈ (((npLinspace 0 (2 * ops.piQ) (cells_per_ring + 1)).dropLast).map
        fun angle =>
          (npClip (center_lat + lat_range / (num_rings + 1) * ring * (2/5) * ops.sinQ angle)
            min_lat max_lat,
           npClip (center_lon + lon_range / (num_rings + 1) * ring * (2/5) * ops.cosQ angle)
            min_lon max_lon)),
        inRect min_lat max_lat min_lon max_lon p := by
      intro p hp
      rw [List.mem_map] at hp
      obtain ⟨angle, _, rfl⟩ := hp
      obtain ⟨h1, h2⟩ := npClip_mem
        (center_lat + lat_range / (num_rings + 1) * ring * (2/5) * ops.sinQ angle)
        min_lat max_lat hlat
      obtain ⟨h3, h4⟩ := npClip_mem
        (center_lon + lon_range / (num_rings + 1) * ring * (2/5) * ops.cosQ angle)
        min_lon max_lon hlon
      exact ⟨h1, h2, h3, h4⟩
    obtain ⟨s1, he1, hm1⟩ := clusterInner_spec num_sites _ acc
    rw [he1]
    split
    · exact ⟨s1, rfl, fun p hp => hpts p (hm1 p hp)⟩
    · obtain ⟨s2, he2, hm2⟩ := ih (acc ++ s1)
      rw [he2, List.append_assoc]
      refine ⟨s1 ++ s2, rfl, ?_⟩
      intro p hp
      rcases List.mem_append.mp hp with h1 | h1
      · exact hpts p (hm1 p h1)
      · exact hm2 p h1

/-- C10: for every rectangle and requested site count `N ≥ 1`, cluster
placement returns at most `N` site coordinates, the first returned
point is the rectangle centroid, and every returned point (the
centroid, and every clipped ring point) lies within the rectangle; and
for `N = 5` it returns only `4` sites (the centroid plus
`ceil(sqrt 5) = 3` rings of `floor(5/3) = 1` point each), strictly
fewer than requested — whatever the float operations. -/
theorem cluster_placement_spec (ops : FloatOps)
    (min_lat max_lat min_lon max_lon : ℚ) (num_sites : ℕ)
    (hlat : min_lat ≤ max_lat) (hlon : min_lon ≤ max_lon) (hn : 1 ≤ num_sites) :
    (generateClusterLocations ops min_lat max_lat min_lon max_lon num_sites).length
        ≤ num_sites ∧
    (generateClusterLocations ops min_lat max_lat min_lon max_lon num_sites).head? =
      some ((min_lat + max_lat) / 2, (min_lon + max_lon) / 2) ∧
    (∀ p ∈ generateClusterLocations ops min_lat max_lat min_lon max_lon num_sites,
      inRect min_lat max_lat min_lon max_lon p) ∧
    ((generateClusterLocations ops 0 1 0 1 5).length = 4 ∧ 4 < 5) := by
  have hcenter : inRect min_lat max_lat min_lon max_lon
      ((min_lat + max_lat) / 2, (min_lon + max_lon) / 2) := by
    refine ⟨?_, ?_, ?_, ?_⟩ <;> simp only [] <;> linarith
  obtain ⟨suffix, heq, hmem⟩ :=
    clusterRings_spec ops min_lat max_lat min_lon max_lon
      ((min_lat + max_lat) / 2) ((min_lon + max_lon) / 2)
      (max_lat - min_lat) (max_lon - min_lon) num_sites
      (ceilSqrtNat num_sites)
      (if 1 < ceilSqrtNat num_sites then num_sites / ceilSqrtNat num_sites else 0)
      hlat hlon (List.range' 1 (ceilSqrtNat num_sites))
      [((min_lat + max_lat) / 2, (min_lon + max_lon) / 2)]
  have hunfold : generateClusterLocations ops min_lat max_lat min_lon max_lon
      num_sites = (([((min_lat + max_lat) / 2, (min_lon + max_lon) / 2)] ++
        suffix).take num_sites) := by
    rw [generateClusterLocations]
    simp only [if_pos hn]
    rw [heq]
  refine ⟨?_, ?_, ?_, ?_, by norm_num⟩
  · rw [hunfold, List.length_take]
    omega
  · rw [hunfold]
    obtain ⟨m, hm⟩ := Nat.exists_eq_add_of_le hn
    rw [hm]
    simp [List.take_cons]
  · intro p hp
    rw [hunfold] at hp
    have hp' := List.mem_of_mem_take hp
    rcases List.mem_append.mp hp' with h1 | h1
    · have : p = ((min_lat + max_lat) / 2, (min_lon + max_lon) / 2) := by
        simpa using h1
      subst this
      exact hcenter
    · exact hmem p h1
  · with_unfolding_all rfl

/-- Degenerate float operations (all transcendentals return `0`): a
legitimate instantiation of the abstracted float parameters, used to
evaluate concrete runs. -/
def opsZero : FloatOps := ⟨fun _ => 0, fun _ => 0, fun _ => 0, 0, fun _ => 0⟩

/-- Witness for C5: a concrete terminating run of grid placement on the
unit square with `N = 2` returns exactly 2 contained sites. -/
theorem grid_placement_witness :
    (([((0 : ℚ), (0 : ℚ)), (0, 0)]).length = 2 ∧
      ∀ p ∈ [((0 : ℚ), (0 : ℚ)), (0, 0)], inRect 0 1 0 1 p) :=
  grid_placement_exact_and_contained opsZero 20 0 1 0 1 2 (by norm_num) (by norm_num)
    (by norm_num) [(0, 0), (0, 0)] (by with_unfolding_all decide)

/-- Witness for C10: the cluster theorem at the unit square with
`N = 5`. -/
theorem cluster_placement_witness :
    (generateClusterLocations opsZero 0 1 0 1 5).length ≤ 5 ∧
    (generateClusterLocations opsZero 0 1 0 1 5).head? =
      some (((0 : ℚ) + 1) / 2, ((0 : ℚ) + 1) / 2) ∧
    (∀ p ∈ generateClusterLocations opsZero 0 1 0 1 5, inRect 0 1 0 1 p) ∧
    ((generateClusterLocations opsZero 0 1 0 1 5).length = 4 ∧ 4 < 5) :=
  cluster_placement_spec opsZero 0 1 0 1 5 (by norm_num) (by norm_num) (by norm_num)


/-! ### C4: cell emission -/

/-- The inner azimuth loop emits `min(#azimuths, num_cells + 1 - counter)`
cells and advances the counter by that amount. -/
theorem emitAz_spec (freq num_cells : ℕ) (site : ℚ × ℚ) :
    ∀ (az : List ℤ) (counter : ℕ), 1 ≤ counter → counter ≤ num_cells →
      (emitAz freq num_cells site az counter).1.length =
        min az.length (num_cells + 1 - counter) ∧
      (emitAz freq num_cells site az counter).2 =
        counter + (emitAz freq num_cells site az counter).1.length := by
  intro az
  induction az with
  | nil =>
    intro counter h1 h2
    simp only [emitAz, List.length_nil, and_true, true_and]
    omega
  | cons a rest ih =>
    intro counter h1 h2
    rw [emitAz]
    split
    · next hlt =>
      simp only [List.length_cons, List.length_nil, and_true, true_and]
      omega
    · next hge =>
      obtain ⟨ihl, ihc⟩ := ih (counter + 1) (by omega) (by omega)
      simp only [List.length_cons, List.length_nil, and_true, true_and, ihl, ihc]
      omega

/-- Each site gets 3 azimuths under the sectored strategy, otherwise 1. -/
theorem azimuthsFor_length (ops : FloatOps) (strategy : String) (counter : ℕ) :
    (azimuthsFor ops strategy counter).length =
      if strategy = "sectored" then 3 else 1 := by
  by_cases hs : strategy = "sectored"
  · simp [azimuthsFor, hs]
  · by_cases hr : strategy = "random" <;> simp [azimuthsFor, hs, hr]

/-- The site loop emits `min(num_cells + 1 - counter, #sites x sectors)`
cells: emission truncates at exactly `num_cells`, even mid-site. -/
theorem emitSites_length (ops : FloatOps) (strategy : String) (freq num_cells : ℕ) :
    ∀ (sites : List (ℚ × ℚ)) (counter : ℕ), 1 ≤ counter → counter ≤ num_cells →
      (emitSites ops strategy freq num_cells sites counter).length =
        min (num_cells + 1 - counter)
          (sites.length * (if strategy = "sectored" then 3 else 1)) := by
  intro sites
  induction sites with
  | nil =>
    intro counter h1 h2
    by_cases hs : strategy = "sectored" <;> simp [emitSites, hs]
  | cons site rest ih =>
    intro counter h1 h2
    simp only [emitSites]
    obtain ⟨hl, hc⟩ := emitAz_spec freq num_cells site
      (azimuthsFor ops strategy counter) counter h1 h2
    by_cases hs : strategy = "sectored"
    · have haz : (azimuthsFor ops strategy counter).length = 3 := by
        rw [azimuthsFor_length, if_pos hs]
      rw [haz] at hl
      rw [if_pos hs]
      split
      · next hbrk =>
        rw [hl]
        rw [hl] at hc
        rw [hc] at hbrk
        simp only [List.length_cons]
        omega
      · next hcont =>
        rw [List.length_append, hl]
        rw [hl] at hc
        rw [hc] at hcont ⊢
        rw [ih (counter + min 3 (num_cells + 1 - counter)) (by omega) (by omega)]
        rw [if_pos hs]
        simp only [List.length_cons]
        omega
    · have haz : (azimuthsFor ops strategy counter).length = 1 := by
        rw [azimuthsFor_length, if_neg hs]
      rw [haz] at hl
      rw [if_neg hs]
      split
      · next hbrk =>
        rw [hl]
        rw [hl] at hc
        rw [hc] at hbrk
        simp only [List.length_cons]
        omega
      · next hcont =>
        rw [List.length_append, hl]
        rw [hl] at hc
        rw [hc] at hcont ⊢
        rw [ih (counter + min 1 (num_cells + 1 - counter)) (by omega) (by omega)]
        rw [if_neg hs]
        simp only [List.length_cons]
        omega


/-- A sectored 9-cell plan with boundary placement. -/
def plan9 : TopologyParams := ⟨9, 2100, "sectored", "boundary"⟩

/-- A sectored 4-cell plan with boundary placement: `4 // 3 = 1` site
can only yield 3 cells. -/
def plan4 : TopologyParams := ⟨4, 2100, "sectored", "boundary"⟩

/-- C4 (amended): for every plan with `num_cells ≥ 1` and every
rectangle, whenever placement yields the site list `locs`,
`generate_with_params` emits exactly
`min(num_cells, |locs| x sectors_per_site)` cell records, truncating
mid-site; and for the sectored strategy with `num_cells = 9` it derives
`3 = max(1, 9 // 3)` sites and emits exactly 9 cells whose azimuths
cycle `[0, 120, 240]` three times, whatever the float operations.  (The
original claim of exactly `num_cells` records fails when
`3 * max(1, num_cells // 3) < num_cells`: see the counterexample.) -/
theorem generate_with_params_count :
    (∀ (ops : FloatOps) (fuel : ℕ) (params : TopologyParams)
        (min_lat max_lat min_lon max_lon : ℚ) (locs : List (ℚ × ℚ)),
      1 ≤ params.num_cells →
      siteLocations ops fuel params min_lat max_lat min_lon max_lon = some locs →
      (generate_with_params ops fuel params min_lat max_lat min_lon max_lon).map
          List.length =
        some (min params.num_cells (locs.length * sectorsPerSite params))) ∧
    (∀ ops : FloatOps,
      numSites plan9 = 3 ∧
      (generate_with_params ops 0 plan9 0 1 0 1).map List.length = some 9 ∧
      (generate_with_params ops 0 plan9 0 1 0 1).map (List.map Cell.cell_az_deg) =
        some [0, 120, 240, 0, 120, 240, 0, 120, 240]) := by
  constructor
  · intro ops fuel params min_lat max_lat min_lon max_lon locs hn hsites
    rw [generate_with_params, hsites]
    simp only [Option.map_some']
    rw [emitSites_length ops params.azimuth_strategy params.cell_carrier_freq_mhz
      params.num_cells locs 1 (le_refl 1) hn]
    simp only [sectorsPerSite, Nat.add_sub_cancel]
  · intro ops
    refine ⟨rfl, ?_, ?_⟩ <;> with_unfolding_all rfl

/-- C4 counterexample: the sectored plan with `num_cells = 4` (and
boundary placement on the unit square) derives `max(1, 4 // 3) = 1`
site and emits only `3` cells, not `num_cells = 4`. -/
theorem generate_with_params_cex :
    plan4.num_cells = 4 ∧ 1 ≤ plan4.num_cells ∧
    (generate_with_params opsZero 0 plan4 0 1 0 1).map List.length = some 3 := by
  refine ⟨rfl, by decide, ?_⟩
  with_unfolding_all decide

/-- Witness for C4 (amended): the 9-cell sectored plan on the unit
square, whose boundary placement yields 3 sites, emits
`min(9, 3 x 3) = 9` cells. -/
theorem generate_with_params_count_witness :
    (generate_with_params opsZero 0 plan9 0 1 0 1).map List.length =
      some (min plan9.num_cells
        (([((1 : ℚ), (1 : ℚ)/2), (1/2, 1), (0, 1/2)]).length * sectorsPerSite plan9)) :=
  generate_with_params_count.1 opsZero 0 plan9 0 1 0 1
    [((1 : ℚ), (1 : ℚ)/2), (1/2, 1), (0, 1/2)] (by decide)
    (by with_unfolding_all decide)

end Maveric
